import Mathlib

set_option maxRecDepth 8000

/-!
Verification development for the Snalpytics extraction-and-normalization
pipeline (src/main.py and src/api/index.py).

The Python core is shallowly embedded:

* `JVal` models Python values produced by the json library.  Objects are
  ordered key-value lists; lookup (`getKey?`) takes the last binding, which
  is how the json decoder resolves duplicate keys into a dict.
* `parseJsonL` models `json.loads` on the JSON fragment the pipeline uses
  (null, booleans, integers, strings with escapes, arrays, objects,
  whitespace).  Floating point literals and surrogate escapes are outside
  the modelled fragment; on those inputs the model simply fails to parse,
  and no theorem below touches them.  The parser is fuel-indexed with an
  input-derived fuel that is always sufficient for the inputs reasoned
  about below.
* `serializeStr`, `serializeRowsDoc`, `serializePayload` and friends model
  `json.dumps` with its default separators on the shapes the pipeline
  serializes; non-ASCII characters are emitted literally (value-preserving:
  the decoder accepts both the escaped and the literal spelling).
* The repository functions are translated one-to-one:
  `parse_model_json_main` (src/main.py `_parse_model_json`),
  `parse_model_json_idx` (src/api/index.py `_parse_model_json`),
  `build_messages_main` / `build_messages_idx` (`_build_messages`),
  `format_data_with_deepseek` (completion-call adapter with the HTTP
  response supplied as an explicit stub value),
  `try_parse_model_raw` and `normalize_doc`
  (`get_user_data_by_email` retrieval-time normalization).
-/

/-- JSON values as handled by the Python json library.  Objects are kept as
ordered key-value lists; `getKey?` resolves duplicates the way the decoder
builds a dict (last binding wins). -/
inductive JVal where
  | jnull : JVal
  | jbool : Bool → JVal
  | jnum : Int → JVal
  | jstr : String → JVal
  | jarr : List JVal → JVal
  | jobj : List (String × JVal) → JVal

/-- Model of `dict.get` on a decoded object: the last binding of the key,
if any. -/
def getKey? (kvs : List (String × JVal)) (k : String) : Option JVal :=
  kvs.foldl (fun acc p => if p.1 = k then some p.2 else acc) none

/-- Python truthiness of a json value (`bool(v)`). -/
def pyTruthy : JVal → Bool
  | .jnull => false
  | .jbool b => b
  | .jnum n => !(n == 0)
  | .jstr s => !s.data.isEmpty
  | .jarr l => !l.isEmpty
  | .jobj l => !l.isEmpty

/-- Python `len` on a json value; `none` models the `TypeError` raised on
values without a length. -/
def pyLen : JVal → Option Nat
  | .jstr s => some s.data.length
  | .jarr l => some l.length
  | .jobj l => some l.length
  | _ => none

/-- The backtick character. -/
def btk : Char := Char.ofNat 96

/-- Whitespace accepted between tokens by the json decoder. -/
def isJsonWs (c : Char) : Bool :=
  c = ' ' || c = '\t' || c = '\n' || c = '\r'

/-- Whitespace stripped by Python `str.strip()` (ASCII part; the inputs
reasoned about contain no exotic unicode spaces). -/
def isPyWs (c : Char) : Bool :=
  c = ' ' || c = '\t' || c = '\n' || c = '\r' || c = Char.ofNat 11 || c = Char.ofNat 12

/-- Drop characters satisfying `p` from both ends: the common core of
`str.strip()` and `str.strip(chars)`. -/
def stripEnds (p : Char → Bool) (l : List Char) : List Char :=
  ((l.dropWhile p).reverse.dropWhile p).reverse

/-- Python `text.strip()`. -/
def pyStrip (l : List Char) : List Char := stripEnds isPyWs l

/-- Python `text.strip("`")` and `text.strip("```")`:
both strip over the character set containing only the backtick. -/
def stripBtks (l : List Char) : List Char := stripEnds (fun c => c = btk) l

/-- Skip json whitespace. -/
def skipWs : List Char → List Char
  | [] => []
  | c :: cs => if isJsonWs c then skipWs cs else c :: cs

/-- Value of a hexadecimal digit character. -/
def hexVal (c : Char) : Option Nat :=
  if 48 ≤ c.toNat && c.toNat ≤ 57 then some (c.toNat - 48)
  else if 97 ≤ c.toNat && c.toNat ≤ 102 then some (c.toNat - 87)
  else if 65 ≤ c.toNat && c.toNat ≤ 70 then some (c.toNat - 55)
  else none

/-- Lower-case hexadecimal digit character for a value below 16. -/
def hexDigit (n : Nat) : Char :=
  Char.ofNat (if n < 10 then 48 + n else 87 + n)

/-- Decoding of a single-character string escape. -/
def escDecode : Char → Option Char
  | '"' => some ('"')
  | '\\' => some ('\\')
  | '/' => some ('/')
  | 'b' => some (Char.ofNat 8)
  | 'f' => some (Char.ofNat 12)
  | 'n' => some ('\n')
  | 'r' => some ('\r')
  | 't' => some ('\t')
  | _ => none

/-- Body of a json string literal, after the opening quote: returns the
decoded characters and the input after the closing quote.  Unescaped
control characters are rejected (strict mode), `\uXXXX` escapes are decoded
for the non-surrogate plane the model uses. -/
def parseStringBody : List Char → Option (List Char × List Char)
  | [] => none
  | c :: rest =>
    if c = '"' then some ([], rest)
    else if c = '\\' then
      match rest with
      | 'u' :: h1 :: h2 :: h3 :: h4 :: r =>
        match hexVal h1, hexVal h2, hexVal h3, hexVal h4 with
        | some a, some b, some c2, some d =>
          let m := ((a * 16 + b) * 16 + c2) * 16 + d
          if m < 55296 then
            match parseStringBody r with
            | some (cs, rr) => some (Char.ofNat m :: cs, rr)
            | none => none
          else none
        | _, _, _, _ => none
      | e :: r =>
        match escDecode e with
        | some ec =>
          match parseStringBody r with
          | some (cs, rr) => some (ec :: cs, rr)
          | none => none
        | none => none
      | [] => none
    else if c.toNat < 32 then none
    else
      match parseStringBody rest with
      | some (cs, rr) => some (c :: cs, rr)
      | none => none

/-- Run of decimal digits accumulated into a number. -/
def grabDigits : List Char → Nat → Nat × List Char
  | c :: rest, acc =>
    if c.isDigit then grabDigits rest (acc * 10 + (c.toNat - 48)) else (acc, c :: rest)
  | [], acc => (acc, [])

/-- Integer literal (the numeric fragment the model covers). -/
def parseNum : List Char → Option (JVal × List Char)
  | '-' :: c :: rest =>
    if c.isDigit then
      let p := grabDigits (c :: rest) 0
      some (.jnum (-(p.1 : Int)), p.2)
    else none
  | c :: rest =>
    if c.isDigit then
      let p := grabDigits (c :: rest) 0
      some (.jnum (p.1 : Int), p.2)
    else none
  | [] => none

mutual

/-- One json value from the input, fuel-indexed. -/
def parseValueF : Nat → List Char → Option (JVal × List Char)
  | 0, _ => none
  | f + 1, input =>
    match skipWs input with
    | 'n' :: 'u' :: 'l' :: 'l' :: rest => some (.jnull, rest)
    | 't' :: 'r' :: 'u' :: 'e' :: rest => some (.jbool true, rest)
    | 'f' :: 'a' :: 'l' :: 's' :: 'e' :: rest => some (.jbool false, rest)
    | '"' :: rest =>
      match parseStringBody rest with
      | some (cs, rr) => some (.jstr (String.mk cs), rr)
      | none => none
    | '[' :: rest =>
      match skipWs rest with
      | ']' :: rr => some (.jarr [], rr)
      | other =>
        match parseElemsF f other with
        | some (vs, rr) => some (.jarr vs, rr)
        | none => none
    | '{' :: rest =>
      match skipWs rest with
      | '}' :: rr => some (.jobj [], rr)
      | other =>
        match parseMembersF f other with
        | some (kvs, rr) => some (.jobj kvs, rr)
        | none => none
    | other => parseNum other

/-- Comma-separated array elements up to the closing bracket. -/
def parseElemsF : Nat → List Char → Option (List JVal × List Char)
  | 0, _ => none
  | f + 1, input =>
    match parseValueF f input with
    | some (v, r) =>
      match skipWs r with
      | ',' :: r2 =>
        match parseElemsF f r2 with
        | some (vs, rr) => some (v :: vs, rr)
        | none => none
      | ']' :: r2 => some ([v], r2)
      | _ => none
    | none => none

/-- Comma-separated object members up to the closing brace. -/
def parseMembersF : Nat → List Char → Option (List (String × JVal) × List Char)
  | 0, _ => none
  | f + 1, input =>
    match skipWs input with
    | '"' :: rest =>
      match parseStringBody rest with
      | some (cs, r1) =>
        match skipWs r1 with
        | ':' :: r2 =>
          match parseValueF f r2 with
          | some (v, r3) =>
            match skipWs r3 with
            | ',' :: r4 =>
              match parseMembersF f r4 with
              | some (kvs, rr) => some ((String.mk cs, v) :: kvs, rr)
              | none => none
            | '}' :: r4 => some ([(String.mk cs, v)], r4)
            | _ => none
          | none => none
        | _ => none
      | none => none
    | _ => none

end

/-- Model of `json.loads`: one value, surrounded only by whitespace.  The
fuel `2 * length + 4` dominates the recursion depth of every input whose
parse the development relies on (proved where used). -/
def parseJsonL (l : List Char) : Option JVal :=
  match parseValueF (2 * l.length + 4) l with
  | some (v, r) => if (skipWs r).isEmpty then some v else none
  | none => none

/-- Encoding of one character inside a json string literal (`json.dumps`
escapes quote, backslash and control characters; other characters are kept,
which the decoder accepts unchanged). -/
def escapeChar (c : Char) : List Char :=
  if c = '"' then ['\\', '"']
  else if c = '\\' then ['\\', '\\']
  else if c.toNat < 32 then
    ['\\', 'u', '0', '0', hexDigit (c.toNat / 16), hexDigit (c.toNat % 16)]
  else [c]

/-- Encoding of a character sequence inside a string literal. -/
def escList : List Char → List Char
  | [] => []
  | c :: cs => escapeChar c ++ escList cs

/-- Serialization of a string, as json.dumps emits it. -/
def serializeStr (s : String) : List Char :=
  ('"' :: escList s.data) ++ ['"']

/-- One `"key": value` member, `json.dumps` style. -/
def memberS (k : String) (v : List Char) : List Char :=
  serializeStr k ++ (':' :: (' ' :: v))

/-- Continuation of the members of a flat string-valued object after the
first member. -/
def serializeTailKVs : List (String × String) → List Char
  | [] => []
  | (k, v) :: ps => ',' :: (' ' :: (memberS k (serializeStr v) ++ serializeTailKVs ps))

/-- Members of a flat string-valued object. -/
def serializeStrKVs : List (String × String) → List Char
  | [] => []
  | (k, v) :: ps => memberS k (serializeStr v) ++ serializeTailKVs ps

/-- Serialization of a flat string-valued object (a spec Row). -/
def serializeRowObj (r : List (String × String)) : List Char :=
  ('{' :: serializeStrKVs r) ++ ['}']

/-- Continuation of the elements of an array of Rows after the first
element. -/
def serializeRowsTail : List (List (String × String)) → List Char
  | [] => []
  | r :: rs => ',' :: (' ' :: (serializeRowObj r ++ serializeRowsTail rs))

/-- Elements of an array of Rows. -/
def serializeRowsElems : List (List (String × String)) → List Char
  | [] => []
  | r :: rs => serializeRowObj r ++ serializeRowsTail rs

/-- Serialization of an array of Rows. -/
def serializeRowsArr (rows : List (List (String × String))) : List Char :=
  ('[' :: serializeRowsElems rows) ++ [']']

/-- Serialization of an object holding an array of Rows under the key
`rows` (the shape the prompt demands from the model, and the shape of the
`schema` and `output_format` sub-dicts). -/
def serializeRowsDoc (rows : List (List (String × String))) : List Char :=
  ('{' :: memberS ("rows") (serializeRowsArr rows)) ++ ['}']

/-- Continuation of the elements of an array of strings after the first
element. -/
def serializeStrTail : List String → List Char
  | [] => []
  | x :: xs => ',' :: (' ' :: (serializeStr x ++ serializeStrTail xs))

/-- Elements of an array of strings. -/
def serializeStrElems : List String → List Char
  | [] => []
  | x :: xs => serializeStr x ++ serializeStrTail xs

/-- Serialization of an array of strings. -/
def serializeStrArr (xs : List String) : List Char :=
  ('[' :: serializeStrElems xs) ++ [']']

/-- Cleaning step of src/main.py `_parse_model_json`:
`text.strip().strip("```")`. -/
def cleaned_main (text : String) : List Char := stripBtks (pyStrip text.data)

/-- Cleaning step of src/api/index.py `_parse_model_json`:
`text.strip("`").strip()`. -/
def cleaned_idx (text : String) : List Char := pyStrip (stripBtks text.data)

/-- Shared shape handling of both `_parse_model_json` variants: a decoded
dict with a list under `rows` yields that list, a decoded list yields
itself, everything else (including a failed decode) yields the empty
list. -/
def rowsOfPayload (p : Option JVal) : List JVal :=
  match p with
  | some (.jobj kvs) =>
    match getKey? kvs ("rows") with
    | some (.jarr rows) => rows
    | _ => []
  | some (.jarr xs) => xs
  | _ => []

/-- src/main.py `_parse_model_json`: empty input short-circuits, then the
cleaned text is decoded and the dict/list shapes are extracted; any decode
failure degrades to the empty list. -/
def parse_model_json_main (text : String) : List JVal :=
  if text.data.isEmpty then []
  else rowsOfPayload (parseJsonL (cleaned_main text))

/-- src/api/index.py `_parse_model_json`: same shape handling, with the
strip order `strip("`").strip()` and no separate empty-input branch (the
decode of an empty cleaned text fails and degrades to the empty list). -/
def parse_model_json_idx (text : String) : List JVal :=
  rowsOfPayload (parseJsonL (cleaned_idx text))

/-- Names not yet seen are kept, in order of first occurrence. -/
def pyDedupAux : List String → List String → List String
  | [], _ => []
  | x :: xs, seen =>
    if x ∈ seen then pyDedupAux xs seen else x :: pyDedupAux xs (x :: seen)

/-- Python dict comprehension key order over a field list: first
occurrence of each name is kept. -/
def pyDedup (l : List String) : List String := pyDedupAux l []

/-- System instruction of src/main.py `_build_messages`. -/
def systemTextMain : String :=
  "You are an expert data extractor. Output must be STRICT JSON only. " ++
  "No markdown, no explanations. Use exactly the requested headers as keys."

/-- System instruction of src/api/index.py `_build_messages`. -/
def systemTextIdx : String :=
  "You are an expert data extractor. Output must be STRICT JSON only. " ++
  "No markdown, no explanations. Use exactly the requested headers as keys. " ++
  "If missing, leave blank. Return multiple `rows` if multiple items exist."

/-- The `user_payload` dict of `_build_messages` (identical in both
files): headers, raw text, schema with one `"string"`-valued example row,
and an output format with one empty-valued template row.  The dict
comprehensions collapse duplicate field names to their first occurrence. -/
def userPayloadJ (fields : List String) (rawContent : String) : JVal :=
  .jobj
    [("headers", .jarr (fields.map JVal.jstr)),
     ("text", .jstr rawContent),
     ("schema", .jobj [("rows", .jarr
        [.jobj ((pyDedup fields).map (fun f => (f, JVal.jstr ("string"))))])]),
     ("output_format", .jobj [("rows", .jarr
        [.jobj ((pyDedup fields).map (fun f => (f, JVal.jstr (""))))])])]

/-- Serialization of the user payload, `json.dumps(user_payload)`: the form of
`userPayloadJ fields rawContent`, written with the shape-specific
serializers. -/
def serializePayload (fields : List String) (rawContent : String) : List Char :=
  ('{' ::
    (memberS ("headers") (serializeStrArr fields) ++
      (',' :: (' ' ::
        (memberS ("text") (serializeStr rawContent) ++
          (',' :: (' ' ::
            (memberS ("schema")
                (serializeRowsDoc [(pyDedup fields).map (fun f => (f, "string"))]) ++
              (',' :: (' ' ::
                memberS ("output_format")
                  (serializeRowsDoc [(pyDedup fields).map (fun f => (f, ""))]))))))))))) ++ ['}']

/-- src/main.py `_build_messages`: a system message and a user message
whose content is `json.dumps(user_payload)`. -/
def build_messages_main (fields : List String) (rawContent : String) : List (String × String) :=
  [("system", systemTextMain),
   ("user", String.mk (serializePayload fields rawContent))]

/-- src/api/index.py `_build_messages`. -/
def build_messages_idx (fields : List String) (rawContent : String) : List (String × String) :=
  [("system", systemTextIdx),
   ("user", String.mk (serializePayload fields rawContent))]

/-- Stubbed outcome of the `requests.post` call to the completion
endpoint: either the call raised (transport failure, timeout), or a
response arrived with a status code, a body text, and the result of
extracting `json()["choices"][0]["message"]["content"]` (`Except.error`
models the exception raised when the body is not json of the expected
shape). -/
inductive CompletionAttempt where
  | raised : String → CompletionAttempt
  | response : Nat → String → Except String String → CompletionAttempt

/-- Model of `format_data_with_deepseek` (src/main.py; src/api/index.py is
identical): on status 200 the extracted content is normalized and returned
together with the raw content; a non-200 status yields no rows and a
diagnostic with the status code and body; any raised exception yields no
rows and a diagnostic with the exception text. -/
def format_data_with_deepseek (fields : List String) (rawContent : String)
    (attempt : CompletionAttempt) : List JVal × String :=
  let _msgs := build_messages_main fields rawContent
  match attempt with
  | .raised msg => ([], ("Error formatting data: ") ++ msg)
  | .response status body extract =>
    if status = 200 then
      match extract with
      | .ok content => (parse_model_json_main content, content)
      | .error emsg => ([], ("Error formatting data: ") ++ emsg)
    else ([], ("Error: ") ++ (toString status) ++ (" - ") ++ body)

/-- Index of the first `{` or `[` in the text (`_try_parse_model_raw`
forward scan). -/
def firstOpenIdx (l : List Char) : Option Nat :=
  l.findIdx? (fun c => c = '{' || c = '[')

/-- One past the index of the last `}` or `]` in the text
(`_try_parse_model_raw` backward scan; Python sets `end = i + 1`). -/
def lastCloseEnd (l : List Char) : Option Nat :=
  match l.reverse.findIdx? (fun c => c = '}' || c = ']') with
  | some k => some (l.length - k)
  | none => none

/-- Model of `_try_parse_model_raw` inside `get_user_data_by_email` (identical in
both files): non-strings and falsy values yield `[]`; the text is
stripped, a full backtick fence is removed, a direct decode is attempted,
and on failure the region from the first opening bracket to the last
closing bracket is decoded; every failure yields `[]`. -/
def try_parse_model_raw (modelRaw : JVal) : JVal :=
  match modelRaw with
  | .jstr s =>
    if s.data.isEmpty then .jarr []
    else
      let s1 := pyStrip s.data
      let s2 :=
        if [btk, btk, btk].isPrefixOf s1 && [btk, btk, btk].isSuffixOf s1
        then stripBtks s1 else s1
      match parseJsonL s2 with
      | some v => v
      | none =>
        match firstOpenIdx s2, lastCloseEnd s2 with
        | some st, some en =>
          if st < en then
            match parseJsonL ((s2.drop st).take (en - st)) with
            | some v => v
            | none => .jarr []
          else .jarr []
        | _, _ => .jarr []
  | _ => .jarr []

/-- Python `{**d, k: v}`: the value is replaced in place when the key is
present, appended otherwise. -/
def setKey (d : List (String × JVal)) (k : String) (v : JVal) : List (String × JVal) :=
  if d.any (fun p => p.1 = k) then d.map (fun p => if p.1 = k then (p.1, v) else p)
  else d ++ [(k, v)]

/-- Per-record normalization loop of `get_user_data_by_email`: `rows`
falls back to `[]` when falsy, the `model_raw` re-parse runs only when
`(not rows or len(rows) == 0) and d.get("model_raw")`, and the record is
returned with every stored field plus `parsed_rows`.  The result is `none`
when Python would raise (`len` on a value without a length). -/
def normalize_doc (d : List (String × JVal)) : Option (List (String × JVal)) :=
  let rows :=
    match getKey? d ("rows") with
    | some v => if pyTruthy v then v else .jarr []
    | none => .jarr []
  let emptyCheck : Option Bool :=
    if pyTruthy rows then
      match pyLen rows with
      | some n => some (n == 0)
      | none => none
    else some true
  match emptyCheck with
  | none => none
  | some c1 =>
    let mraw := getKey? d ("model_raw")
    let doReparse := c1 && (match mraw with | some mv => pyTruthy mv | none => false)
    let parsedRows :=
      if doReparse then
        match mraw with
        | some mv =>
          match try_parse_model_raw mv with
          | .jobj kvs =>
            match getKey? kvs ("rows") with
            | some (.jarr rs) => .jarr rs
            | _ => rows
          | .jarr rs => .jarr rs
          | _ => rows
        | none => rows
      else rows
    some (setKey d ("parsed_rows") parsedRows)

/-- The records list built by `get_user_data_by_email` from the fetched
documents. -/
def get_user_data_records (docs : List (List (String × JVal))) :
    Option (List (List (String × JVal))) :=
  docs.mapM normalize_doc


/-! ### Round trip: the decoder recovers what the serializers emit -/

/-- Hexadecimal digits decode back to their value. -/
theorem hexVal_hexDigit : ∀ n, n < 16 → hexVal (hexDigit n) = some n := by decide

/-- Decoding the escaped encoding of a character sequence recovers the
sequence and stops at the closing quote. -/
theorem parseStringBody_escList (cs rest : List Char) :
    parseStringBody (escList cs ++ ('"' :: rest)) = some (cs, rest) := by
  induction cs with
  | nil =>
    rw [show escList [] ++ ('"' :: rest) = '"' :: rest from rfl, parseStringBody.eq_def]
    simp
  | cons c cs ih =>
    by_cases hq : c = '"'
    · subst hq
      rw [show escList ('"' :: cs) ++ ('"' :: rest) = '\\' :: '"' :: (escList cs ++ ('"' :: rest))
        from by simp [escList, escapeChar], parseStringBody.eq_def]
      simp [escDecode, ih]
    · by_cases hb : c = '\\'
      · subst hb
        rw [show escList ('\\' :: cs) ++ ('"' :: rest) =
            '\\' :: '\\' :: (escList cs ++ ('"' :: rest)) from by simp [escList, escapeChar],
          parseStringBody.eq_def]
        simp [escDecode, ih]
      · by_cases hc : c.toNat < 32
        · have h1 : c.toNat / 16 < 16 := by omega
          have h2 : c.toNat % 16 < 16 := by omega
          have e1 := hexVal_hexDigit _ h1
          have e2 := hexVal_hexDigit _ h2
          have hz : hexVal ('0') = some 0 := rfl
          rw [show escList (c :: cs) ++ ('"' :: rest) =
              '\\' :: 'u' :: '0' :: '0' :: hexDigit (c.toNat / 16) :: hexDigit (c.toNat % 16) ::
                (escList cs ++ ('"' :: rest)) from by simp [escList, escapeChar, hq, hb, hc],
            parseStringBody.eq_def]
          simp only [e1, e2, hz]
          have hm : ((0 * 16 + 0) * 16 + c.toNat / 16) * 16 + c.toNat % 16 = c.toNat := by omega
          simp [hm, show c.toNat < 55296 by omega, Char.ofNat_toNat, ih]
          refine ⟨by omega, ?_⟩
          rw [show c.toNat / 16 * 16 + c.toNat % 16 = c.toNat from by omega, Char.ofNat_toNat]
        · rw [show escList (c :: cs) ++ ('"' :: rest) = c :: (escList cs ++ ('"' :: rest))
            from by simp [escList, escapeChar, hq, hb, hc], parseStringBody.eq_def]
          simp [hq, hb, hc, ih]

/-- Json whitespace skipping stops at a non-whitespace character. -/
theorem skipWs_cons_not {c : Char} (l : List Char) (h : isJsonWs c = false) :
    skipWs (c :: l) = c :: l := by
  simp [skipWs, h]

theorem skipWs_space (l : List Char) : skipWs (' ' :: l) = skipWs l := by
  simp [skipWs, show isJsonWs (' ') = true from rfl]

theorem skipWs_nl (l : List Char) : skipWs ('\n' :: l) = skipWs l := by
  simp [skipWs, show isJsonWs ('\n') = true from rfl]

theorem skipWs_quote (l : List Char) : skipWs ('"' :: l) = '"' :: l :=
  skipWs_cons_not l rfl

theorem skipWs_colon (l : List Char) : skipWs (':' :: l) = ':' :: l :=
  skipWs_cons_not l rfl

theorem skipWs_comma (l : List Char) : skipWs (',' :: l) = ',' :: l :=
  skipWs_cons_not l rfl

theorem skipWs_lbrace (l : List Char) : skipWs ('{' :: l) = '{' :: l :=
  skipWs_cons_not l rfl

theorem skipWs_rbrace (l : List Char) : skipWs ('}' :: l) = '}' :: l :=
  skipWs_cons_not l rfl

theorem skipWs_lbrack (l : List Char) : skipWs ('[' :: l) = '[' :: l :=
  skipWs_cons_not l rfl

theorem skipWs_rbrack (l : List Char) : skipWs (']' :: l) = ']' :: l :=
  skipWs_cons_not l rfl

theorem parseValueF_str (f : Nat) (s : String) (rest : List Char) :
    parseValueF (f + 1) (serializeStr s ++ rest) = some (.jstr s, rest) := by
  obtain ⟨d⟩ := s
  rw [show serializeStr (String.mk d) ++ rest = '"' :: (escList d ++ ('"' :: rest)) from by
    simp [serializeStr]]
  simp only [parseValueF, skipWs_quote, parseStringBody_escList]

theorem parseValueF_cons_ws (f : Nat) (l : List Char) :
    parseValueF (f + 1) (' ' :: l) = parseValueF (f + 1) l := by
  simp only [parseValueF]
  rw [skipWs_space]

theorem parseMembersF_cons_ws (f : Nat) (l : List Char) :
    parseMembersF (f + 1) (' ' :: l) = parseMembersF (f + 1) l := by
  simp only [parseMembersF]
  rw [skipWs_space]

/-- Row members as the decoded JVal members. -/
def strRowKVs (r : List (String × String)) : List (String × JVal) :=
  r.map (fun p => (p.1, JVal.jstr p.2))

theorem parseMembersF_flat (r : List (String × String)) :
    ∀ (g : Nat) (rest : List Char), r ≠ [] →
    parseMembersF (r.length + 1 + g) (serializeStrKVs r ++ ('}' :: rest)) =
      some (strRowKVs r, rest) := by
  induction r with
  | nil => exact fun g rest h => absurd rfl h
  | cons p ps ih =>
    intro g rest _
    obtain ⟨k, v⟩ := p
    have hfuel : ((k, v) :: ps).length + 1 + g = (ps.length + 1 + g) + 1 := by
      simp [List.length_cons]; omega
    have hshape : serializeStrKVs ((k, v) :: ps) ++ ('}' :: rest) =
        '"' :: (escList k.data ++ ('"' :: (':' :: (' ' :: (serializeStr v ++
          (serializeTailKVs ps ++ ('}' :: rest))))))) := by
      simp [serializeStrKVs, memberS, serializeStr]
    have hv : parseValueF (ps.length + 1 + g) (' ' :: (serializeStr v ++
        (serializeTailKVs ps ++ ('}' :: rest)))) =
        some (.jstr v, serializeTailKVs ps ++ ('}' :: rest)) := by
      rw [show ps.length + 1 + g = (ps.length + g) + 1 from by omega, parseValueF_cons_ws,
        parseValueF_str]
    rw [hfuel, hshape]
    simp only [parseMembersF, skipWs_quote, parseStringBody_escList, skipWs_colon, hv]
    cases ps with
    | nil =>
      rw [show serializeTailKVs [] ++ ('}' :: rest) = '}' :: rest from by
        simp [serializeTailKVs]]
      simp only [skipWs_rbrace]
      simp [strRowKVs]
    | cons q ps2 =>
      obtain ⟨k2, v2⟩ := q
      have htail : serializeTailKVs ((k2, v2) :: ps2) ++ ('}' :: rest) =
          ',' :: (' ' :: (serializeStrKVs ((k2, v2) :: ps2) ++ ('}' :: rest))) := by
        simp [serializeTailKVs, serializeStrKVs]
      have hrec : parseMembersF (ps2.length + 1 + 1 + g)
          (' ' :: (serializeStrKVs ((k2, v2) :: ps2) ++ ('}' :: rest))) =
          some (strRowKVs ((k2, v2) :: ps2), rest) := by
        rw [show ps2.length + 1 + 1 + g = (ps2.length + 1 + g) + 1 from by omega,
          parseMembersF_cons_ws]
        rw [show (ps2.length + 1 + g) + 1 = ((k2, v2) :: ps2).length + 1 + g from by
          simp [List.length_cons]; omega]
        exact ih g rest (by simp)
      rw [htail]
      simp only [skipWs_comma, List.length_cons, hrec]
      simp [strRowKVs]

theorem parseElemsF_cons_ws (f : Nat) (l : List Char) :
    parseElemsF (f + 1) (' ' :: l) = parseElemsF (f + 1) l := by
  conv_lhs => rw [parseElemsF]
  conv_rhs => rw [parseElemsF]
  rw [show parseValueF f (' ' :: l) = parseValueF f l from by
    cases f with
    | zero => rfl
    | succ f2 => exact parseValueF_cons_ws f2 l]

/-- A Row as the decoded json object. -/
def rowJ (r : List (String × String)) : JVal := .jobj (strRowKVs r)

/-- A row array as decoded json values. -/
def rowsJ (rows : List (List (String × String))) : List JVal := rows.map rowJ

/-- The decoded form of `serializeRowsDoc rows`. -/
def rowsDocJ (rows : List (List (String × String))) : JVal :=
  .jobj [("rows", .jarr (rowsJ rows))]

/-- Fuel sufficient for the row-array element loop. -/
def rowsFuel : List (List (String × String)) → Nat
  | [] => 0
  | r :: rs => r.length + 3 + rowsFuel rs

theorem parseValueF_rowObj (r : List (String × String)) (g : Nat) (rest : List Char) :
    parseValueF (r.length + 2 + g) (serializeRowObj r ++ rest) =
      some (rowJ r, rest) := by
  rw [show serializeRowObj r ++ rest = '{' :: (serializeStrKVs r ++ ('}' :: rest)) from by
    simp [serializeRowObj]]
  rw [show r.length + 2 + g = (r.length + 1 + g) + 1 from by omega]
  cases r with
  | nil =>
    simp only [parseValueF, skipWs_lbrace, serializeStrKVs, List.nil_append, skipWs_rbrace]
    simp [rowJ, strRowKVs]
  | cons p ps =>
    obtain ⟨k, v⟩ := p
    have hshape : serializeStrKVs ((k, v) :: ps) ++ ('}' :: rest) =
        '"' :: (escList k.data ++ ('"' :: (':' :: (' ' :: (serializeStr v ++
          (serializeTailKVs ps ++ ('}' :: rest))))))) := by
      simp [serializeStrKVs, memberS, serializeStr]
    simp only [parseValueF, skipWs_lbrace]
    rw [hshape, skipWs_quote]
    split
    · next rr heq => simp at heq
    · next other heq =>
      rw [← hshape, parseMembersF_flat ((k, v) :: ps) g rest (by simp)]
      simp [rowJ]

theorem parseElemsF_rows (R : List (List (String × String))) :
    ∀ (g : Nat) (rest : List Char), R ≠ [] →
    parseElemsF (rowsFuel R + g) (serializeRowsElems R ++ (']' :: rest)) =
      some (rowsJ R, rest) := by
  induction R with
  | nil => exact fun g rest h => absurd rfl h
  | cons r rs ih =>
    intro g rest _
    rw [show rowsFuel (r :: rs) + g = (r.length + 2 + (rowsFuel rs + g)) + 1 from by
      simp [rowsFuel]; omega]
    rw [show serializeRowsElems (r :: rs) ++ (']' :: rest) =
      serializeRowObj r ++ (serializeRowsTail rs ++ (']' :: rest)) from by
      simp [serializeRowsElems]]
    conv_lhs => rw [parseElemsF]
    rw [parseValueF_rowObj r (rowsFuel rs + g) (serializeRowsTail rs ++ (']' :: rest))]
    cases rs with
    | nil =>
      rw [show serializeRowsTail [] ++ (']' :: rest) = ']' :: rest from by
        simp [serializeRowsTail]]
      simp [skipWs_rbrack, rowsJ]
    | cons r2 rs2 =>
      rw [show serializeRowsTail (r2 :: rs2) ++ (']' :: rest) =
          ',' :: (' ' :: (serializeRowsElems (r2 :: rs2) ++ (']' :: rest))) from by
        simp [serializeRowsTail, serializeRowsElems]]
      simp only [skipWs_comma]
      have hrec : parseElemsF (r.length + 2 + (rowsFuel (r2 :: rs2) + g))
          (' ' :: (serializeRowsElems (r2 :: rs2) ++ (']' :: rest))) =
          some (rowsJ (r2 :: rs2), rest) := by
        rw [show r.length + 2 + (rowsFuel (r2 :: rs2) + g) =
          (rowsFuel (r2 :: rs2) + (r.length + 1 + g)) + 1 from by omega, parseElemsF_cons_ws]
        rw [show (rowsFuel (r2 :: rs2) + (r.length + 1 + g)) + 1 =
          rowsFuel (r2 :: rs2) + (r.length + 2 + g) from by omega]
        exact ih (r.length + 2 + g) rest (by simp)
      rw [hrec]
      simp [rowsJ]

theorem parseValueF_rowsArr (R : List (List (String × String))) (g : Nat) (rest : List Char) :
    parseValueF (rowsFuel R + 1 + g) (serializeRowsArr R ++ rest) =
      some (.jarr (rowsJ R), rest) := by
  rw [show serializeRowsArr R ++ rest = '[' :: (serializeRowsElems R ++ (']' :: rest)) from by
    simp [serializeRowsArr]]
  rw [show rowsFuel R + 1 + g = (rowsFuel R + g) + 1 from by omega]
  cases R with
  | nil =>
    simp only [parseValueF, skipWs_lbrack, serializeRowsElems, List.nil_append, skipWs_rbrack]
    simp [rowsJ]
  | cons r rs =>
    have hshape : serializeRowsElems (r :: rs) ++ (']' :: rest) =
        '{' :: ((serializeStrKVs r ++ ('}' :: (serializeRowsTail rs ++ (']' :: rest))))) := by
      simp [serializeRowsElems, serializeRowObj]
    simp only [parseValueF, skipWs_lbrack]
    rw [hshape, skipWs_lbrace]
    split
    · next rr heq => simp at heq
    · next other heq =>
      rw [← hshape, parseElemsF_rows (r :: rs) g rest (by simp)]

theorem parseMembersF_rowsMember (R : List (List (String × String))) (g : Nat)
    (rest : List Char) :
    parseMembersF (rowsFuel R + 3 + g) (memberS ("rows") (serializeRowsArr R) ++ ('}' :: rest)) =
      some ([("rows", .jarr (rowsJ R))], rest) := by
  rw [show memberS ("rows") (serializeRowsArr R) ++ ('}' :: rest) =
      '"' :: (escList ("rows").data ++ ('"' :: (':' :: (' ' ::
        (serializeRowsArr R ++ ('}' :: rest)))))) from by
    simp [memberS, serializeStr]]
  rw [show rowsFuel R + 3 + g = (rowsFuel R + 2 + g) + 1 from by omega]
  simp only [parseMembersF, skipWs_quote, parseStringBody_escList, skipWs_colon]
  have hv : parseValueF (rowsFuel R + 2 + g)
      (' ' :: (serializeRowsArr R ++ ('}' :: rest))) =
      some (.jarr (rowsJ R), '}' :: rest) := by
    rw [show rowsFuel R + 2 + g = (rowsFuel R + 1 + g) + 1 from by omega, parseValueF_cons_ws]
    rw [show (rowsFuel R + 1 + g) + 1 = rowsFuel R + 1 + (g + 1) from by omega]
    exact parseValueF_rowsArr R (g + 1) ('}' :: rest)
  rw [hv]
  simp [skipWs_rbrace]

theorem parseValueF_rowsDoc (R : List (List (String × String))) (g : Nat) (rest : List Char) :
    parseValueF (rowsFuel R + 4 + g) (serializeRowsDoc R ++ rest) =
      some (rowsDocJ R, rest) := by
  have hshape : serializeRowsDoc R ++ rest =
      '{' :: (memberS ("rows") (serializeRowsArr R) ++ ('}' :: rest)) := by
    simp [serializeRowsDoc]
  have hshape2 : memberS ("rows") (serializeRowsArr R) ++ ('}' :: rest) =
      '"' :: (escList ("rows").data ++ ('"' :: (':' :: (' ' ::
        (serializeRowsArr R ++ ('}' :: rest)))))) := by
    simp [memberS, serializeStr]
  rw [hshape, show rowsFuel R + 4 + g = ((rowsFuel R + 3 + g)) + 1 from by omega]
  simp only [parseValueF, skipWs_lbrace]
  rw [hshape2, skipWs_quote]
  split
  · next rr heq => simp at heq
  · next other heq =>
    rw [← hshape2, parseMembersF_rowsMember R g rest]
    simp [rowsDocJ]

theorem parseElemsF_strs (xs : List String) :
    ∀ (g : Nat) (rest : List Char), xs ≠ [] →
    parseElemsF (2 * xs.length + g) (serializeStrElems xs ++ (']' :: rest)) =
      some (xs.map JVal.jstr, rest) := by
  induction xs with
  | nil => exact fun g rest h => absurd rfl h
  | cons x xs2 ih =>
    intro g rest _
    rw [show 2 * (x :: xs2).length + g = ((2 * xs2.length + g) + 1) + 1 from by
      simp [List.length_cons]; omega]
    rw [show serializeStrElems (x :: xs2) ++ (']' :: rest) =
      serializeStr x ++ (serializeStrTail xs2 ++ (']' :: rest)) from by
      simp [serializeStrElems]]
    conv_lhs => rw [parseElemsF]
    rw [parseValueF_str]
    cases xs2 with
    | nil =>
      rw [show serializeStrTail [] ++ (']' :: rest) = ']' :: rest from by
        simp [serializeStrTail]]
      simp [skipWs_rbrack]
    | cons y ys =>
      rw [show serializeStrTail (y :: ys) ++ (']' :: rest) =
          ',' :: (' ' :: (serializeStrElems (y :: ys) ++ (']' :: rest))) from by
        simp [serializeStrTail, serializeStrElems]]
      simp only [skipWs_comma]
      have hrec : parseElemsF ((2 * (y :: ys).length + g) + 1)
          (' ' :: (serializeStrElems (y :: ys) ++ (']' :: rest))) =
          some ((y :: ys).map JVal.jstr, rest) := by
        rw [show (2 * (y :: ys).length + g) + 1 = (2 * (y :: ys).length + g) + 1 from rfl,
          parseElemsF_cons_ws]
        rw [show (2 * (y :: ys).length + g) + 1 = 2 * (y :: ys).length + (g + 1) from by omega]
        exact ih (g + 1) rest (by simp)
      rw [hrec]
      simp

theorem parseValueF_strArr (xs : List String) (g : Nat) (rest : List Char) :
    parseValueF (2 * xs.length + 1 + g) (serializeStrArr xs ++ rest) =
      some (.jarr (xs.map JVal.jstr), rest) := by
  rw [show serializeStrArr xs ++ rest = '[' :: (serializeStrElems xs ++ (']' :: rest)) from by
    simp [serializeStrArr]]
  rw [show 2 * xs.length + 1 + g = (2 * xs.length + g) + 1 from by omega]
  cases xs with
  | nil =>
    simp only [parseValueF, skipWs_lbrack, serializeStrElems, List.nil_append, skipWs_rbrack]
    simp
  | cons x xs2 =>
    have hshape : serializeStrElems (x :: xs2) ++ (']' :: rest) =
        '"' :: (escList x.data ++ ('"' :: (serializeStrTail xs2 ++ (']' :: rest)))) := by
      simp [serializeStrElems, serializeStr]
    simp only [parseValueF, skipWs_lbrack]
    rw [hshape, skipWs_quote]
    split
    · next rr heq => simp at heq
    · next other heq =>
      rw [← hshape, parseElemsF_strs (x :: xs2) g rest (by simp)]

theorem parseMembersF_last (k : String) (vser : List Char) (v : JVal) (rest : List Char)
    (f : Nat)
    (hv : parseValueF f (' ' :: (vser ++ ('}' :: rest))) = some (v, '}' :: rest)) :
    parseMembersF (f + 1) (memberS k vser ++ ('}' :: rest)) = some ([(k, v)], rest) := by
  obtain ⟨kd⟩ := k
  rw [show memberS (String.mk kd) vser ++ ('}' :: rest) =
      '"' :: (escList kd ++ ('"' :: (':' :: (' ' :: (vser ++ ('}' :: rest)))))) from by
    simp [memberS, serializeStr]]
  simp only [parseMembersF, skipWs_quote, parseStringBody_escList, skipWs_colon, hv]
  simp [skipWs_rbrace]

theorem parseMembersF_more (k : String) (vser : List Char) (v : JVal) (tail rest : List Char)
    (f : Nat) (kvs : List (String × JVal))
    (hv : parseValueF f (' ' :: (vser ++ (',' :: (' ' :: tail)))) =
      some (v, ',' :: (' ' :: tail)))
    (hrec : parseMembersF f (' ' :: tail) = some (kvs, rest)) :
    parseMembersF (f + 1) (memberS k vser ++ (',' :: (' ' :: tail))) =
      some ((k, v) :: kvs, rest) := by
  obtain ⟨kd⟩ := k
  rw [show memberS (String.mk kd) vser ++ (',' :: (' ' :: tail)) =
      '"' :: (escList kd ++ ('"' :: (':' :: (' ' :: (vser ++ (',' :: (' ' :: tail))))))) from by
    simp [memberS, serializeStr]]
  simp only [parseMembersF, skipWs_quote, parseStringBody_escList, skipWs_colon, hv,
    skipWs_comma, hrec]

theorem parseValueF_payload (F : List String) (T : String) (i : Nat) (rest : List Char) :
    parseValueF (2 * F.length + (pyDedup F).length + 16 + i) (serializePayload F T ++ rest) =
      some (userPayloadJ F T, rest) := by
  have hlen1 : ((pyDedup F).map (fun f => (f, ("string" : String)))).length =
      (pyDedup F).length := List.length_map _ _
  have hlen2 : ((pyDedup F).map (fun f => (f, ("" : String)))).length =
      (pyDedup F).length := List.length_map _ _
  have hv4 : ∀ j, parseValueF ((pyDedup F).length + 8 + j)
      (' ' :: (serializeRowsDoc [(pyDedup F).map (fun f => (f, ("" : String)))] ++
        ('}' :: rest))) =
      some (rowsDocJ [(pyDedup F).map (fun f => (f, ("" : String)))], '}' :: rest) := by
    intro j
    rw [show (pyDedup F).length + 8 + j = ((pyDedup F).length + 7 + j) + 1 from by omega,
      parseValueF_cons_ws]
    rw [show ((pyDedup F).length + 7 + j) + 1 =
      rowsFuel [(pyDedup F).map (fun f => (f, ("" : String)))] + 4 + (j + 1) from by
      simp [rowsFuel, hlen2]; omega]
    exact parseValueF_rowsDoc _ _ _
  have M4 : ∀ j, parseMembersF ((pyDedup F).length + 9 + j)
      (memberS ("output_format")
        (serializeRowsDoc [(pyDedup F).map (fun f => (f, ("" : String)))]) ++ ('}' :: rest)) =
      some ([("output_format", rowsDocJ [(pyDedup F).map (fun f => (f, ("" : String)))])],
        rest) := by
    intro j
    rw [show (pyDedup F).length + 9 + j = ((pyDedup F).length + 8 + j) + 1 from by omega]
    exact parseMembersF_last _ _ _ _ _ (hv4 j)
  have hv3 : ∀ j, parseValueF ((pyDedup F).length + 10 + j)
      (' ' :: (serializeRowsDoc [(pyDedup F).map (fun f => (f, ("string" : String)))] ++
        (',' :: (' ' :: (memberS ("output_format")
          (serializeRowsDoc [(pyDedup F).map (fun f => (f, ("" : String)))]) ++
          ('}' :: rest)))))) =
      some (rowsDocJ [(pyDedup F).map (fun f => (f, ("string" : String)))],
        ',' :: (' ' :: (memberS ("output_format")
          (serializeRowsDoc [(pyDedup F).map (fun f => (f, ("" : String)))]) ++
          ('}' :: rest)))) := by
    intro j
    rw [show (pyDedup F).length + 10 + j = ((pyDedup F).length + 9 + j) + 1 from by omega,
      parseValueF_cons_ws]
    rw [show ((pyDedup F).length + 9 + j) + 1 =
      rowsFuel [(pyDedup F).map (fun f => (f, ("string" : String)))] + 4 + (j + 3) from by
      simp [rowsFuel, hlen1]; omega]
    exact parseValueF_rowsDoc _ _ _
  have M3 : ∀ j, parseMembersF ((pyDedup F).length + 11 + j)
      (memberS ("schema")
        (serializeRowsDoc [(pyDedup F).map (fun f => (f, ("string" : String)))]) ++
        (',' :: (' ' :: (memberS ("output_format")
          (serializeRowsDoc [(pyDedup F).map (fun f => (f, ("" : String)))]) ++
          ('}' :: rest))))) =
      some ([("schema", rowsDocJ [(pyDedup F).map (fun f => (f, ("string" : String)))]),
        ("output_format", rowsDocJ [(pyDedup F).map (fun f => (f, ("" : String)))])],
        rest) := by
    intro j
    rw [show (pyDedup F).length + 11 + j = ((pyDedup F).length + 10 + j) + 1 from by omega]
    refine parseMembersF_more _ _ _ _ _ _ _ (hv3 j) ?_
    rw [show (pyDedup F).length + 10 + j = ((pyDedup F).length + 9 + j) + 1 from by omega,
      parseMembersF_cons_ws]
    rw [show ((pyDedup F).length + 9 + j) + 1 = (pyDedup F).length + 9 + (j + 1) from by omega]
    exact M4 (j + 1)
  have hv2 : ∀ j, parseValueF ((pyDedup F).length + 12 + j)
      (' ' :: (serializeStr T ++ (',' :: (' ' :: (memberS ("schema")
        (serializeRowsDoc [(pyDedup F).map (fun f => (f, ("string" : String)))]) ++
        (',' :: (' ' :: (memberS ("output_format")
          (serializeRowsDoc [(pyDedup F).map (fun f => (f, ("" : String)))]) ++
          ('}' :: rest))))))))) =
      some (.jstr T, ',' :: (' ' :: (memberS ("schema")
        (serializeRowsDoc [(pyDedup F).map (fun f => (f, ("string" : String)))]) ++
        (',' :: (' ' :: (memberS ("output_format")
          (serializeRowsDoc [(pyDedup F).map (fun f => (f, ("" : String)))]) ++
          ('}' :: rest))))))) := by
    intro j
    rw [show (pyDedup F).length + 12 + j = (((pyDedup F).length + 11 + j) + 1) from by omega,
      parseValueF_cons_ws, parseValueF_str]
  have M2 : ∀ j, parseMembersF ((pyDedup F).length + 13 + j)
      (memberS ("text") (serializeStr T) ++ (',' :: (' ' :: (memberS ("schema")
        (serializeRowsDoc [(pyDedup F).map (fun f => (f, ("string" : String)))]) ++
        (',' :: (' ' :: (memberS ("output_format")
          (serializeRowsDoc [(pyDedup F).map (fun f => (f, ("" : String)))]) ++
          ('}' :: rest)))))))) =
      some ([("text", .jstr T),
        ("schema", rowsDocJ [(pyDedup F).map (fun f => (f, ("string" : String)))]),
        ("output_format", rowsDocJ [(pyDedup F).map (fun f => (f, ("" : String)))])],
        rest) := by
    intro j
    rw [show (pyDedup F).length + 13 + j = ((pyDedup F).length + 12 + j) + 1 from by omega]
    refine parseMembersF_more _ _ _ _ _ _ _ (hv2 j) ?_
    rw [show (pyDedup F).length + 12 + j = ((pyDedup F).length + 11 + j) + 1 from by omega,
      parseMembersF_cons_ws]
    rw [show ((pyDedup F).length + 11 + j) + 1 = (pyDedup F).length + 11 + (j + 1) from by
      omega]
    exact M3 (j + 1)
  have hv1 : parseValueF (2 * F.length + (pyDedup F).length + 14 + i)
      (' ' :: (serializeStrArr F ++ (',' :: (' ' :: (memberS ("text") (serializeStr T) ++
        (',' :: (' ' :: (memberS ("schema")
          (serializeRowsDoc [(pyDedup F).map (fun f => (f, ("string" : String)))]) ++
          (',' :: (' ' :: (memberS ("output_format")
            (serializeRowsDoc [(pyDedup F).map (fun f => (f, ("" : String)))]) ++
            ('}' :: rest)))))))))))) =
      some (.jarr (F.map JVal.jstr), ',' :: (' ' :: (memberS ("text") (serializeStr T) ++
        (',' :: (' ' :: (memberS ("schema")
          (serializeRowsDoc [(pyDedup F).map (fun f => (f, ("string" : String)))]) ++
          (',' :: (' ' :: (memberS ("output_format")
            (serializeRowsDoc [(pyDedup F).map (fun f => (f, ("" : String)))]) ++
            ('}' :: rest)))))))))) := by
    rw [show 2 * F.length + (pyDedup F).length + 14 + i =
      (2 * F.length + (pyDedup F).length + 13 + i) + 1 from by omega, parseValueF_cons_ws]
    rw [show (2 * F.length + (pyDedup F).length + 13 + i) + 1 =
      2 * F.length + 1 + ((pyDedup F).length + 13 + i) from by omega]
    exact parseValueF_strArr _ _ _
  have M1 : parseMembersF (2 * F.length + (pyDedup F).length + 15 + i)
      (memberS ("headers") (serializeStrArr F) ++ (',' :: (' ' ::
        (memberS ("text") (serializeStr T) ++ (',' :: (' ' :: (memberS ("schema")
          (serializeRowsDoc [(pyDedup F).map (fun f => (f, ("string" : String)))]) ++
          (',' :: (' ' :: (memberS ("output_format")
            (serializeRowsDoc [(pyDedup F).map (fun f => (f, ("" : String)))]) ++
            ('}' :: rest))))))))))) =
      some ([("headers", .jarr (F.map JVal.jstr)), ("text", .jstr T),
        ("schema", rowsDocJ [(pyDedup F).map (fun f => (f, ("string" : String)))]),
        ("output_format", rowsDocJ [(pyDedup F).map (fun f => (f, ("" : String)))])],
        rest) := by
    rw [show 2 * F.length + (pyDedup F).length + 15 + i =
      (2 * F.length + (pyDedup F).length + 14 + i) + 1 from by omega]
    refine parseMembersF_more _ _ _ _ _ _ _ hv1 ?_
    rw [show 2 * F.length + (pyDedup F).length + 14 + i =
      (2 * F.length + (pyDedup F).length + 13 + i) + 1 from by omega, parseMembersF_cons_ws]
    rw [show (2 * F.length + (pyDedup F).length + 13 + i) + 1 =
      (pyDedup F).length + 13 + (2 * F.length + 1 + i) from by omega]
    exact M2 (2 * F.length + 1 + i)
  have hshape : serializePayload F T ++ rest =
      '{' :: (memberS ("headers") (serializeStrArr F) ++ (',' :: (' ' ::
        (memberS ("text") (serializeStr T) ++ (',' :: (' ' :: (memberS ("schema")
          (serializeRowsDoc [(pyDedup F).map (fun f => (f, ("string" : String)))]) ++
          (',' :: (' ' :: (memberS ("output_format")
            (serializeRowsDoc [(pyDedup F).map (fun f => (f, ("" : String)))]) ++
            ('}' :: rest))))))))))) := by
    simp [serializePayload]
  have hshape2 : memberS ("headers") (serializeStrArr F) ++ (',' :: (' ' ::
        (memberS ("text") (serializeStr T) ++ (',' :: (' ' :: (memberS ("schema")
          (serializeRowsDoc [(pyDedup F).map (fun f => (f, ("string" : String)))]) ++
          (',' :: (' ' :: (memberS ("output_format")
            (serializeRowsDoc [(pyDedup F).map (fun f => (f, ("" : String)))]) ++
            ('}' :: rest)))))))))) =
      '"' :: (escList ("headers").data ++ ('"' :: (':' :: (' ' :: (serializeStrArr F ++
        (',' :: (' ' :: (memberS ("text") (serializeStr T) ++ (',' :: (' ' ::
          (memberS ("schema")
            (serializeRowsDoc [(pyDedup F).map (fun f => (f, ("string" : String)))]) ++
            (',' :: (' ' :: (memberS ("output_format")
              (serializeRowsDoc [(pyDedup F).map (fun f => (f, ("" : String)))]) ++
              ('}' :: rest))))))))))))))) := by
    simp [memberS, serializeStr]
  rw [hshape, show 2 * F.length + (pyDedup F).length + 16 + i =
    (2 * F.length + (pyDedup F).length + 15 + i) + 1 from by omega]
  simp only [parseValueF, skipWs_lbrace]
  rw [hshape2, skipWs_quote]
  split
  · next rr heq => simp at heq
  · next other heq =>
    rw [← hshape2, M1]
    simp [userPayloadJ, rowsDocJ, rowsJ, rowJ, strRowKVs, List.map_map, Function.comp]

theorem parseValueF_cons_nl (f : Nat) (l : List Char) :
    parseValueF (f + 1) ('\n' :: l) = parseValueF (f + 1) l := by
  simp only [parseValueF]
  rw [skipWs_nl]

theorem length_le_serializeTailKVs (r : List (String × String)) :
    r.length ≤ (serializeTailKVs r).length := by
  induction r with
  | nil => simp [serializeTailKVs]
  | cons p ps ih =>
    obtain ⟨k, v⟩ := p
    simp only [serializeTailKVs, memberS, serializeStr, List.length_cons, List.length_append]
    omega

theorem length_le_serializeStrKVs (r : List (String × String)) :
    r.length ≤ (serializeStrKVs r).length := by
  cases r with
  | nil => simp [serializeStrKVs]
  | cons p ps =>
    obtain ⟨k, v⟩ := p
    have := length_le_serializeTailKVs ps
    simp only [serializeStrKVs, memberS, serializeStr, List.length_cons, List.length_append]
    omega

theorem rowsFuel_le_tail (R : List (List (String × String))) :
    rowsFuel R ≤ 2 * (serializeRowsTail R).length := by
  induction R with
  | nil => simp [rowsFuel, serializeRowsTail]
  | cons r rs ih =>
    have h1 := length_le_serializeStrKVs r
    simp only [rowsFuel, serializeRowsTail, serializeRowObj, List.length_cons,
      List.length_append] at *
    omega

theorem rowsFuel_le_elems (R : List (List (String × String))) :
    rowsFuel R ≤ 2 * (serializeRowsElems R).length + 2 := by
  cases R with
  | nil => simp [rowsFuel]
  | cons r rs =>
    have h1 := length_le_serializeStrKVs r
    have h2 := rowsFuel_le_tail rs
    simp only [rowsFuel, serializeRowsElems, serializeRowObj, List.length_cons,
      List.length_append] at *
    omega

theorem rowsFuel_le_doc (R : List (List (String × String))) :
    rowsFuel R + 4 ≤ 2 * (serializeRowsDoc R).length + 4 := by
  have h := rowsFuel_le_elems R
  have e : (escList ("rows").data).length = 4 := rfl
  simp only [serializeRowsDoc, memberS, serializeStr, serializeRowsArr, List.length_cons,
    List.length_append, e] at *
  omega

/-- Top-level decode of a serialized rows document. -/
theorem parseJsonL_rowsDoc (R : List (List (String × String))) :
    parseJsonL (serializeRowsDoc R) = some (rowsDocJ R) := by
  have h := rowsFuel_le_doc R
  obtain ⟨i, hi⟩ : ∃ i, 2 * (serializeRowsDoc R).length + 4 = rowsFuel R + 4 + i :=
    ⟨2 * (serializeRowsDoc R).length - rowsFuel R, by omega⟩
  rw [parseJsonL, hi]
  rw [show serializeRowsDoc R = serializeRowsDoc R ++ [] from by simp,
    parseValueF_rowsDoc R i []]
  rfl

/-- Top-level decode of a serialized rows document surrounded by the
newlines left over from fence stripping. -/
theorem parseJsonL_rowsDoc_nl (R : List (List (String × String))) :
    parseJsonL ('\n' :: (serializeRowsDoc R ++ ['\n'])) = some (rowsDocJ R) := by
  have h := rowsFuel_le_doc R
  have hlen : ('\n' :: (serializeRowsDoc R ++ ['\n'])).length =
      (serializeRowsDoc R).length + 2 := by
    simp
  obtain ⟨i, hi⟩ : ∃ i, 2 * ((serializeRowsDoc R).length + 2) + 4 = (rowsFuel R + 4 + i) + 1 :=
    ⟨2 * (serializeRowsDoc R).length + 3 - rowsFuel R, by omega⟩
  rw [parseJsonL, hlen, hi, parseValueF_cons_nl]
  rw [show rowsFuel R + 4 + i + 1 = rowsFuel R + 4 + (i + 1) from by omega,
    parseValueF_rowsDoc R (i + 1) ['\n']]
  rfl

theorem stripEnds_nop {p : Char → Bool} {a b : Char} (m : List Char)
    (ha : p a = false) (hb : p b = false) :
    stripEnds p (a :: (m ++ [b])) = a :: (m ++ [b]) := by
  simp only [stripEnds, List.dropWhile_cons, ha, if_false, Bool.false_eq_true]
  rw [show (a :: (m ++ [b])).reverse = b :: (m.reverse ++ [a]) from by simp]
  simp only [List.dropWhile_cons, hb, if_false, Bool.false_eq_true]
  simp

theorem dropWhile_T {p : Char → Bool} {a : Char} (l : List Char) (h : p a = true) :
    List.dropWhile p (a :: l) = List.dropWhile p l := by
  simp [List.dropWhile_cons, h]

theorem dropWhile_F {p : Char → Bool} {a : Char} (l : List Char) (h : p a = false) :
    List.dropWhile p (a :: l) = a :: l := by
  simp [List.dropWhile_cons, h]

theorem stripBtks_fenced (X : List Char) :
    stripBtks (btk :: (btk :: (btk :: ('\n' :: (X ++ ('\n' :: (btk :: (btk :: [btk])))))))) =
      '\n' :: (X ++ ['\n']) := by
  have hT : (fun c => decide (c = btk)) btk = true := by decide
  have hF : (fun c => decide (c = btk)) '\n' = false := by decide
  show (((btk :: (btk :: (btk :: ('\n' :: (X ++ ('\n' :: (btk :: (btk :: [btk])))))))).dropWhile
      (fun c => decide (c = btk))).reverse.dropWhile (fun c => decide (c = btk))).reverse =
    '\n' :: (X ++ ['\n'])
  rw [dropWhile_T _ hT, dropWhile_T _ hT, dropWhile_T _ hT, dropWhile_F _ hF]
  rw [show ('\n' :: (X ++ ('\n' :: (btk :: (btk :: [btk]))))).reverse =
    btk :: (btk :: (btk :: ('\n' :: (X.reverse ++ ['\n'])))) from by simp]
  rw [dropWhile_T _ hT, dropWhile_T _ hT, dropWhile_T _ hT, dropWhile_F _ hF]
  simp

theorem pyStrip_nl_doc (Y : List Char) :
    pyStrip ('\n' :: (('{' :: (Y ++ ['}'])) ++ ['\n'])) = '{' :: (Y ++ ['}']) := by
  have hT : isPyWs ('\n') = true := by decide
  have hF1 : isPyWs ('{') = false := by decide
  have hF2 : isPyWs ('}') = false := by decide
  show (((('\n' :: (('{' :: (Y ++ ['}'])) ++ ['\n'])).dropWhile isPyWs).reverse.dropWhile
    isPyWs).reverse = '{' :: (Y ++ ['}']))
  rw [show '\n' :: (('{' :: (Y ++ ['}'])) ++ ['\n']) =
    '\n' :: ('{' :: ((Y ++ ['}']) ++ ['\n'])) from by simp]
  rw [dropWhile_T _ hT, dropWhile_F _ hF1]
  rw [show ('{' :: ((Y ++ ['}']) ++ ['\n'])).reverse =
    '\n' :: ('}' :: (Y.reverse ++ ['{'])) from by simp]
  rw [dropWhile_T _ hT, dropWhile_F _ hF2]
  simp

theorem parseValueF_S (f : Nat) (l : List Char) :
    parseValueF (f + 1) ('S' :: l) = none := by
  simp only [parseValueF, skipWs_cons_not _ (show isJsonWs ('S') = false from rfl)]
  simp [parseNum, show ('S').isDigit = false from rfl]

theorem parseJsonL_S (l : List Char) : parseJsonL ('S' :: l) = none := by
  rw [parseJsonL, show 2 * ('S' :: l).length + 4 = (2 * ('S' :: l).length + 3) + 1 from by
    omega, parseValueF_S]

/-- The clean model answer for a row array: `json.dumps` of the rows
document. -/
def cleanRowsDoc (R : List (List (String × String))) : String :=
  String.mk (serializeRowsDoc R)

/-- The same answer wrapped in a backtick fence. -/
def fencedRowsDoc (R : List (List (String × String))) : String :=
  ("```\n" ++ cleanRowsDoc R) ++ "\n```"

/-- The same answer embedded in surrounding prose. -/
def proseRowsDoc (R : List (List (String × String))) : String :=
  ("Sure, here it is:\n" ++ cleanRowsDoc R) ++ "\nThanks!"

theorem rowsOfPayload_doc (R : List (List (String × String))) :
    rowsOfPayload (some (rowsDocJ R)) = rowsJ R := by
  simp [rowsOfPayload, rowsDocJ, getKey?]

theorem serializeRowsDoc_shape (R : List (List (String × String))) :
    serializeRowsDoc R = '{' :: (memberS ("rows") (serializeRowsArr R) ++ ['}']) := by
  simp [serializeRowsDoc]

theorem cleaned_main_clean (R : List (List (String × String))) :
    cleaned_main (cleanRowsDoc R) = serializeRowsDoc R := by
  have hF1 : isPyWs ('{') = false := by decide
  have hF2 : isPyWs ('}') = false := by decide
  have hB1 : ((fun c => decide (c = btk)) '{') = false := by decide
  have hB2 : ((fun c => decide (c = btk)) '}') = false := by decide
  rw [cleaned_main, show (cleanRowsDoc R).data = serializeRowsDoc R from rfl,
    serializeRowsDoc_shape]
  rw [pyStrip, stripEnds_nop _ hF1 hF2]
  rw [stripBtks, stripEnds_nop _ hB1 hB2]

theorem cleaned_idx_clean (R : List (List (String × String))) :
    cleaned_idx (cleanRowsDoc R) = serializeRowsDoc R := by
  have hF1 : isPyWs ('{') = false := by decide
  have hF2 : isPyWs ('}') = false := by decide
  have hB1 : ((fun c => decide (c = btk)) '{') = false := by decide
  have hB2 : ((fun c => decide (c = btk)) '}') = false := by decide
  rw [cleaned_idx, show (cleanRowsDoc R).data = serializeRowsDoc R from rfl,
    serializeRowsDoc_shape]
  rw [stripBtks, stripEnds_nop _ hB1 hB2]
  rw [pyStrip, stripEnds_nop _ hF1 hF2]

theorem fencedRowsDoc_data (R : List (List (String × String))) :
    (fencedRowsDoc R).data =
      btk :: (btk :: (btk :: ('\n' :: (serializeRowsDoc R ++
        ('\n' :: (btk :: (btk :: [btk]))))))) := by
  have e1 : ("```\n").data = [btk, btk, btk, '\n'] := by decide
  have e2 : ("\n```").data = ['\n', btk, btk, btk] := by decide
  rw [fencedRowsDoc, String.data_append, String.data_append, e1, e2,
    show (cleanRowsDoc R).data = serializeRowsDoc R from rfl]
  simp

theorem cleaned_main_fenced (R : List (List (String × String))) :
    cleaned_main (fencedRowsDoc R) = '\n' :: (serializeRowsDoc R ++ ['\n']) := by
  have hB : isPyWs btk = false := by decide
  rw [cleaned_main, fencedRowsDoc_data]
  rw [show btk :: (btk :: (btk :: ('\n' :: (serializeRowsDoc R ++
      ('\n' :: (btk :: (btk :: [btk]))))))) =
    btk :: ((btk :: (btk :: ('\n' :: (serializeRowsDoc R ++ ('\n' :: (btk :: [btk])))))) ++
      [btk]) from by simp]
  rw [pyStrip, stripEnds_nop _ hB hB]
  rw [show btk :: ((btk :: (btk :: ('\n' :: (serializeRowsDoc R ++ ('\n' :: (btk :: [btk])))))) ++
      [btk]) =
    btk :: (btk :: (btk :: ('\n' :: (serializeRowsDoc R ++
      ('\n' :: (btk :: (btk :: [btk]))))))) from by simp]
  exact stripBtks_fenced _

theorem cleaned_idx_fenced (R : List (List (String × String))) :
    cleaned_idx (fencedRowsDoc R) = serializeRowsDoc R := by
  rw [cleaned_idx, fencedRowsDoc_data, stripBtks_fenced, serializeRowsDoc_shape]
  exact pyStrip_nl_doc _

theorem proseRowsDoc_data (R : List (List (String × String))) :
    (proseRowsDoc R).data =
      'S' :: ((("ure, here it is:\n").data ++ (serializeRowsDoc R ++ ("\nThanks").data)) ++
        ['!']) := by
  have e1 : ("Sure, here it is:\n").data = 'S' :: ("ure, here it is:\n").data := by decide
  have e2 : ("\nThanks!").data = ("\nThanks").data ++ ['!'] := by decide
  rw [proseRowsDoc, String.data_append, String.data_append, e1, e2,
    show (cleanRowsDoc R).data = serializeRowsDoc R from rfl]
  simp

theorem cleaned_main_prose (R : List (List (String × String))) :
    cleaned_main (proseRowsDoc R) = (proseRowsDoc R).data := by
  have hS : isPyWs ('S') = false := by decide
  have hE : isPyWs ('!') = false := by decide
  have hBS : ((fun c => decide (c = btk)) 'S') = false := by decide
  have hBE : ((fun c => decide (c = btk)) '!') = false := by decide
  rw [cleaned_main, proseRowsDoc_data]
  rw [pyStrip, stripEnds_nop _ hS hE]
  rw [stripBtks, stripEnds_nop _ hBS hBE]

theorem cleaned_idx_prose (R : List (List (String × String))) :
    cleaned_idx (proseRowsDoc R) = (proseRowsDoc R).data := by
  have hS : isPyWs ('S') = false := by decide
  have hE : isPyWs ('!') = false := by decide
  have hBS : ((fun c => decide (c = btk)) 'S') = false := by decide
  have hBE : ((fun c => decide (c = btk)) '!') = false := by decide
  rw [cleaned_idx, proseRowsDoc_data]
  rw [stripBtks, stripEnds_nop _ hBS hBE]
  rw [pyStrip, stripEnds_nop _ hS hE]

theorem pmm_clean (R : List (List (String × String))) :
    parse_model_json_main (cleanRowsDoc R) = rowsJ R := by
  have hne : (cleanRowsDoc R).data.isEmpty = false := by
    rw [show (cleanRowsDoc R).data = serializeRowsDoc R from rfl, serializeRowsDoc_shape]
    simp
  simp only [parse_model_json_main, hne, Bool.false_eq_true, if_false,
    cleaned_main_clean, parseJsonL_rowsDoc, rowsOfPayload_doc]

theorem pmi_clean (R : List (List (String × String))) :
    parse_model_json_idx (cleanRowsDoc R) = rowsJ R := by
  simp only [parse_model_json_idx, cleaned_idx_clean, parseJsonL_rowsDoc, rowsOfPayload_doc]

theorem pmm_fenced (R : List (List (String × String))) :
    parse_model_json_main (fencedRowsDoc R) = rowsJ R := by
  have hne : (fencedRowsDoc R).data.isEmpty = false := by
    rw [fencedRowsDoc_data]; simp
  simp only [parse_model_json_main, hne, Bool.false_eq_true, if_false,
    cleaned_main_fenced, parseJsonL_rowsDoc_nl, rowsOfPayload_doc]

theorem pmi_fenced (R : List (List (String × String))) :
    parse_model_json_idx (fencedRowsDoc R) = rowsJ R := by
  simp only [parse_model_json_idx, cleaned_idx_fenced, parseJsonL_rowsDoc, rowsOfPayload_doc]

theorem pmm_prose (R : List (List (String × String))) :
    parse_model_json_main (proseRowsDoc R) = [] := by
  have hne : (proseRowsDoc R).data.isEmpty = false := by
    rw [proseRowsDoc_data]; simp
  simp only [parse_model_json_main, hne, Bool.false_eq_true, if_false, cleaned_main_prose]
  rw [proseRowsDoc_data, parseJsonL_S]
  rfl

theorem pmi_prose (R : List (List (String × String))) :
    parse_model_json_idx (proseRowsDoc R) = [] := by
  simp only [parse_model_json_idx, cleaned_idx_prose]
  rw [proseRowsDoc_data, parseJsonL_S]
  rfl

/-! ### Claim theorems -/

/-- C1 (counterexample): for the row array `[{"a": "1"}]`, normalizing the
clean string yields the row, but normalizing the prose-embedded variant
yields the empty sequence in both `_parse_model_json` implementations —
the function has no forward/backward bracket scan (that fallback exists
only in `_try_parse_model_raw`), so the claimed three-way equivalence is
false. -/
theorem c1_counterexample :
    parse_model_json_main ("\x7b\"rows\": [\x7b\"a\": \"1\"\x7d]\x7d") =
      [.jobj [("a", .jstr ("1"))]] ∧
    parse_model_json_main
      ("Sure, here it is:\n\x7b\"rows\": [\x7b\"a\": \"1\"\x7d]\x7d\nThanks!") = [] ∧
    parse_model_json_idx
      ("Sure, here it is:\n\x7b\"rows\": [\x7b\"a\": \"1\"\x7d]\x7d\nThanks!") = [] ∧
    ¬ ([] : List JVal) = [.jobj [("a", .jstr ("1"))]] :=
  ⟨rfl, rfl, rfl, fun h => List.noConfusion h⟩

/-- C1 (amended): for every row array `R` (rows being string-valued
mappings, as the spec defines them), normalizing the clean
`{"rows": R}` string and its backtick-fenced variant yields the same row
sequence under both `_parse_model_json` implementations; the
prose-embedded variant is not recovered — a direct decode fails and the
function returns the empty sequence (the first-bracket/last-bracket scan
lives only in `_try_parse_model_raw`). -/
theorem c1_fenced_equivalence_prose_empty (R : List (List (String × String))) :
    parse_model_json_main (cleanRowsDoc R) = rowsJ R ∧
    parse_model_json_main (fencedRowsDoc R) = rowsJ R ∧
    parse_model_json_idx (cleanRowsDoc R) = rowsJ R ∧
    parse_model_json_idx (fencedRowsDoc R) = rowsJ R ∧
    parse_model_json_main (proseRowsDoc R) = [] ∧
    parse_model_json_idx (proseRowsDoc R) = [] :=
  ⟨pmm_clean R, pmm_fenced R, pmi_clean R, pmi_fenced R, pmm_prose R, pmi_prose R⟩

/-- C2 (counterexample): with the stubbed successful completion whose
content is the ```` ```json ````-fenced rows document, the pipeline
returns an empty row list — stripping backticks leaves the `json`
language tag in place, so the decode fails — not the claimed
`[{"name": "Widget", "price": "19.99"}]`. -/
theorem c2_counterexample :
    (format_data_with_deepseek ["name", "price"] ("Widget — $19.99")
      (.response 200 ("body")
        (.ok ("```json\n\x7b\"rows\":[\x7b\"name\":\"Widget\",\"price\":\"19.99\"\x7d]\x7d\n```")))).1
      = [] ∧
    ¬ ([] : List JVal) =
      [.jobj [("name", .jstr ("Widget")), ("price", .jstr ("19.99"))]] :=
  ⟨rfl, fun h => List.noConfusion h⟩

/-- C2 (amended): for that stubbed completion the pipeline returns the
empty row sequence together with the original fenced text preserved
unchanged as the raw model text; both `_parse_model_json` variants fail on
the `json` language tag. -/
theorem c2_fenced_json_tag_result :
    format_data_with_deepseek ["name", "price"] ("Widget — $19.99")
      (.response 200 ("body")
        (.ok ("```json\n\x7b\"rows\":[\x7b\"name\":\"Widget\",\"price\":\"19.99\"\x7d]\x7d\n```")))
      = ([], ("```json\n\x7b\"rows\":[\x7b\"name\":\"Widget\",\"price\":\"19.99\"\x7d]\x7d\n```")) ∧
    parse_model_json_idx
      ("```json\n\x7b\"rows\":[\x7b\"name\":\"Widget\",\"price\":\"19.99\"\x7d]\x7d\n```") = [] :=
  ⟨rfl, rfl⟩

/-- C3 (counterexample): normalizing the bare array with a non-mapping
element keeps the element — nothing is dropped — so the claimed output
`[{"a":"1"},{"b":"2"}]` is wrong. -/
theorem c3_counterexample :
    parse_model_json_main ("[\x7b\"a\":\"1\"\x7d,\"not-a-row\",\x7b\"b\":\"2\"\x7d]") =
      [.jobj [("a", .jstr ("1"))], .jstr ("not-a-row"), .jobj [("b", .jstr ("2"))]] ∧
    parse_model_json_idx ("[\x7b\"a\":\"1\"\x7d,\"not-a-row\",\x7b\"b\":\"2\"\x7d]") =
      [.jobj [("a", .jstr ("1"))], .jstr ("not-a-row"), .jobj [("b", .jstr ("2"))]] ∧
    ¬ [.jobj [("a", .jstr ("1"))], .jstr ("not-a-row"), .jobj [("b", .jstr ("2"))]] =
      ([.jobj [("a", .jstr ("1"))], .jobj [("b", .jstr ("2"))]] : List JVal) := by
  refine ⟨rfl, rfl, fun h => ?_⟩
  injection h with h1 h2
  injection h2 with h3 h4
  exact JVal.noConfusion h3

/-- C3 (amended): when the input decodes to a bare array the Normalizer
returns every element verbatim — mappings and non-mappings alike, order
preserved; no filtering is applied. -/
theorem c3_array_passthrough (s t : String) (xs : List JVal)
    (hm : parseJsonL (cleaned_main s) = some (.jarr xs))
    (hi : parseJsonL (cleaned_idx t) = some (.jarr xs)) :
    parse_model_json_main s = xs ∧ parse_model_json_idx t = xs := by
  constructor
  · cases hb : s.data.isEmpty with
    | true =>
      have hd : s.data = [] := by simpa [List.isEmpty_iff] using hb
      rw [cleaned_main, hd] at hm
      exact absurd hm (by simp [pyStrip, stripBtks, stripEnds, parseJsonL, parseValueF,
        skipWs, parseNum])
    | false =>
      simp [parse_model_json_main, hb, hm, rowsOfPayload]
  · simp [parse_model_json_idx, hi, rowsOfPayload]

/-- C3 (witness): the documented example, evaluated concretely through the
amended theorem. -/
theorem c3_array_passthrough_witness :
    parse_model_json_main ("[\x7b\"a\":\"1\"\x7d,\"not-a-row\",\x7b\"b\":\"2\"\x7d]") =
      [.jobj [("a", .jstr ("1"))], .jstr ("not-a-row"), .jobj [("b", .jstr ("2"))]] ∧
    parse_model_json_idx ("[\x7b\"a\":\"1\"\x7d,\"not-a-row\",\x7b\"b\":\"2\"\x7d]") =
      [.jobj [("a", .jstr ("1"))], .jstr ("not-a-row"), .jobj [("b", .jstr ("2"))]] :=
  c3_array_passthrough _ _ _ rfl rfl

/-- Row invariant asserted by the spec: a row maps every requested field
name to a string value. -/
def rowHasFields (fields : List String) (row : JVal) : Prop :=
  ∃ kvs, row = .jobj kvs ∧ ∀ f ∈ fields, ∃ s, getKey? kvs f = some (.jstr s)

/-- C4 (counterexample): with requested fields `["name"]`, the Normalizer
emits the row `{"x": 5}` exactly as the model sent it — the requested
field is omitted and the present value is not a string — so the claimed
invariant does not hold for the rows the Normalizer emits. -/
theorem c4_counterexample :
    parse_model_json_main ("\x7b\"rows\": [\x7b\"x\": 5\x7d]\x7d") =
      [.jobj [("x", .jnum 5)]] ∧
    ¬ rowHasFields ["name"] (.jobj [("x", .jnum 5)]) := by
  refine ⟨rfl, ?_⟩
  rintro ⟨kvs, hk, hf⟩
  obtain ⟨s, hs⟩ := hf ("name") (by simp)
  injection hk with h
  rw [← h] at hs
  simp [getKey?] at hs

/-- C4 (amended): the Normalizer enforces nothing about row shape: when
the decoded payload is a dict with a list under `rows`, that list is
returned verbatim, fields and value types untouched (the empty-string
convention is only requested from the model by the prompt). -/
theorem c4_rows_passthrough (s : String) (kvs : List (String × JVal)) (R : List JVal)
    (h : parseJsonL (cleaned_main s) = some (.jobj kvs))
    (hr : getKey? kvs ("rows") = some (.jarr R)) :
    parse_model_json_main s = R := by
  cases hb : s.data.isEmpty with
  | true =>
    have hd : s.data = [] := by simpa [List.isEmpty_iff] using hb
    rw [cleaned_main, hd] at h
    exact absurd h (by simp [pyStrip, stripBtks, stripEnds, parseJsonL, parseValueF,
      skipWs, parseNum])
  | false =>
    simp [parse_model_json_main, hb, h, rowsOfPayload, hr]

/-- C4 (witness): the counterexample input flows through the amended
pass-through theorem. -/
theorem c4_rows_passthrough_witness :
    parse_model_json_main ("\x7b\"rows\": [\x7b\"x\": 5\x7d]\x7d") =
      [.jobj [("x", .jnum 5)]] :=
  c4_rows_passthrough _ [("rows", .jarr [.jobj [("x", .jnum 5)]])] _ rfl rfl

/-- C5: the Normalizer is total — whenever the decode of the cleaned text
fails, both implementations return the empty sequence instead of
propagating an error — and the three documented examples all degrade to
the empty sequence. -/
theorem c5_never_raises :
    (∀ s : String, parseJsonL (cleaned_main s) = none → parse_model_json_main s = []) ∧
    (∀ s : String, parseJsonL (cleaned_idx s) = none → parse_model_json_idx s = []) ∧
    parse_model_json_main ("") = [] ∧ parse_model_json_idx ("") = [] ∧
    parse_model_json_main ("not json at all") = [] ∧
    parse_model_json_idx ("not json at all") = [] ∧
    parse_model_json_main ("[]") = [] ∧ parse_model_json_idx ("[]") = [] := by
  refine ⟨fun s h => ?_, fun s h => ?_, rfl, rfl, rfl, rfl, rfl, rfl⟩
  · cases hb : s.data.isEmpty with
    | true => simp [parse_model_json_main, hb]
    | false => simp [parse_model_json_main, hb, h, rowsOfPayload]
  · simp [parse_model_json_idx, h, rowsOfPayload]

/-- C5 (witness): the theorem applied at a concrete undecodable input. -/
theorem c5_never_raises_witness :
    parse_model_json_main ("zzz") = [] ∧ parse_model_json_idx ("zzz") = [] :=
  ⟨c5_never_raises.1 ("zzz") rfl, c5_never_raises.2.1 ("zzz") rfl⟩

/-- A decoded dict with no list under `rows`. -/
def noRowsList (kvs : List (String × JVal)) : Prop :=
  ∀ R : List JVal, getKey? kvs ("rows") ≠ some (.jarr R)

/-- C8: when the cleaned input decodes to a dict with a list under
`rows`, exactly that list is returned; when it decodes to a dict without
such a key, the empty sequence is returned. -/
theorem c8_dict_rows_key (s t : String) (kvs kvt : List (String × JVal)) (R : List JVal)
    (hs : parseJsonL (cleaned_main s) = some (.jobj kvs))
    (hr : getKey? kvs ("rows") = some (.jarr R))
    (ht : parseJsonL (cleaned_main t) = some (.jobj kvt))
    (hn : noRowsList kvt) :
    parse_model_json_main s = R ∧ parse_model_json_main t = [] := by
  constructor
  · cases hb : s.data.isEmpty with
    | true =>
      have hd : s.data = [] := by simpa [List.isEmpty_iff] using hb
      rw [cleaned_main, hd] at hs
      exact absurd hs (by simp [pyStrip, stripBtks, stripEnds, parseJsonL, parseValueF,
        skipWs, parseNum])
    | false =>
      simp [parse_model_json_main, hb, hs, rowsOfPayload, hr]
  · cases hb : t.data.isEmpty with
    | true => simp [parse_model_json_main, hb]
    | false =>
      cases he : getKey? kvt ("rows") with
      | none => simp [parse_model_json_main, hb, ht, rowsOfPayload, he]
      | some v =>
        cases v with
        | jarr l => exact absurd he (hn l)
        | jnull => simp [parse_model_json_main, hb, ht, rowsOfPayload, he]
        | jbool b => simp [parse_model_json_main, hb, ht, rowsOfPayload, he]
        | jnum n => simp [parse_model_json_main, hb, ht, rowsOfPayload, he]
        | jstr s2 => simp [parse_model_json_main, hb, ht, rowsOfPayload, he]
        | jobj o => simp [parse_model_json_main, hb, ht, rowsOfPayload, he]

/-- C8 (witness): the documented example and a dict without a `rows`
key, both evaluated through the theorem. -/
theorem c8_dict_rows_key_witness :
    parse_model_json_main ("\x7b\"rows\": [\x7b\"price\":\"10\"\x7d]\x7d") =
      [.jobj [("price", .jstr ("10"))]] ∧
    parse_model_json_main ("\x7b\"norows\": 1\x7d") = [] :=
  c8_dict_rows_key _ _ [("rows", .jarr [.jobj [("price", .jstr ("10"))]])]
    [("norows", .jnum 1)] _ rfl rfl rfl
    (fun R h => by simp [getKey?] at h)

/-- Scalar json values (not a container). -/
def isScalar : JVal → Prop
  | .jnull => True
  | .jbool _ => True
  | .jnum _ => True
  | .jstr _ => True
  | _ => False

/-- C10: the Normalizer always returns a list by construction; when the
cleaned input decodes to a scalar, or to a dict whose `rows` value is not
a list, that list is empty. -/
theorem c10_scalar_or_bad_rows (s t : String) (v : JVal) (kvs : List (String × JVal))
    (hs : parseJsonL (cleaned_main s) = some v) (hv : isScalar v)
    (ht : parseJsonL (cleaned_main t) = some (.jobj kvs)) (hn : noRowsList kvs) :
    parse_model_json_main s = [] ∧ parse_model_json_main t = [] := by
  constructor
  · cases hb : s.data.isEmpty with
    | true => simp [parse_model_json_main, hb]
    | false =>
      cases v with
      | jnull => simp [parse_model_json_main, hb, hs, rowsOfPayload]
      | jbool b => simp [parse_model_json_main, hb, hs, rowsOfPayload]
      | jnum n => simp [parse_model_json_main, hb, hs, rowsOfPayload]
      | jstr s2 => simp [parse_model_json_main, hb, hs, rowsOfPayload]
      | jarr l => exact absurd hv (by simp [isScalar])
      | jobj o => exact absurd hv (by simp [isScalar])
  · cases hb : t.data.isEmpty with
    | true => simp [parse_model_json_main, hb]
    | false =>
      cases he : getKey? kvs ("rows") with
      | none => simp [parse_model_json_main, hb, ht, rowsOfPayload, he]
      | some w =>
        cases w with
        | jarr l => exact absurd he (hn l)
        | jnull => simp [parse_model_json_main, hb, ht, rowsOfPayload, he]
        | jbool b => simp [parse_model_json_main, hb, ht, rowsOfPayload, he]
        | jnum n => simp [parse_model_json_main, hb, ht, rowsOfPayload, he]
        | jstr s2 => simp [parse_model_json_main, hb, ht, rowsOfPayload, he]
        | jobj o => simp [parse_model_json_main, hb, ht, rowsOfPayload, he]

/-- C10 (witness): a scalar decode and a dict whose rows value is a
number, both yielding the empty list through the theorem. -/
theorem c10_scalar_or_bad_rows_witness :
    parse_model_json_main ("7") = [] ∧
    parse_model_json_main ("\x7b\"rows\": 5\x7d") = [] :=
  c10_scalar_or_bad_rows _ _ (.jnum 7) [("rows", .jnum 5)] rfl trivial rfl
    (fun R h => by simp [getKey?] at h)

/-- A completion attempt that did not succeed: the request raised, or the
response status is not 200, or the expected response shape is missing. -/
def attemptFailed : CompletionAttempt → Prop
  | .raised _ => True
  | .response st _ ex => st ≠ 200 ∨ ∃ e, ex = .error e

/-- C6: every failed completion attempt produces an empty row sequence
and a diagnostic string starting with `Error`, without raising; for a
non-success status the diagnostic contains the rendered status code. -/
theorem c6_adapter_failures (fields : List String) (raw : String) (a : CompletionAttempt)
    (h : attemptFailed a) :
    (format_data_with_deepseek fields raw a).1 = [] ∧
    ("Error").data <+: (format_data_with_deepseek fields raw a).2.data ∧
    (∀ st body ex, a = .response st body ex → st ≠ 200 →
      (toString st).data <:+: (format_data_with_deepseek fields raw a).2.data) := by
  cases a with
  | raised m =>
    refine ⟨rfl, ?_, ?_⟩
    · rw [show (format_data_with_deepseek fields raw (.raised m)).2 =
        ("Error formatting data: ") ++ m from rfl, String.data_append,
        show ("Error formatting data: ").data =
          ("Error").data ++ (" formatting data: ").data from rfl, List.append_assoc]
      exact List.prefix_append _ _
    · intro st body ex heq
      exact absurd heq (by intro hc; exact CompletionAttempt.noConfusion hc)
  | response st body ex =>
    by_cases hst : st = 200
    · subst hst
      rcases h with h200 | ⟨e, rfl⟩
      · exact absurd rfl h200
      · refine ⟨rfl, ?_, ?_⟩
        · rw [show (format_data_with_deepseek fields raw
            (.response 200 body (.error e))).2 = ("Error formatting data: ") ++ e from rfl,
            String.data_append,
            show ("Error formatting data: ").data =
              ("Error").data ++ (" formatting data: ").data from rfl, List.append_assoc]
          exact List.prefix_append _ _
        · intro st2 body2 ex2 heq h200
          injection heq with h1 h2 h3
          exact absurd h1.symm h200
    · have hfmt : format_data_with_deepseek fields raw (.response st body ex) =
          ([], (("Error: ") ++ (toString st) ++ (" - ") ++ body)) := by
        simp [format_data_with_deepseek, hst]
      refine ⟨by rw [hfmt], ?_, ?_⟩
      · rw [hfmt]
        rw [show ((("Error: ") ++ (toString st) ++ (" - ") ++ body)).data =
          ("Error").data ++ ((": ").data ++ ((toString st).data ++ ((" - ") ++ body).data))
          from by
            rw [String.data_append, String.data_append, String.data_append,
              show ("Error: ").data = ("Error").data ++ ((": ").data) from rfl]
            simp [List.append_assoc]]
        exact List.prefix_append _ _
      · intro st2 body2 ex2 heq _
        injection heq with h1 h2 h3
        subst h1 h2
        rw [hfmt]
        refine ⟨("Error: ").data, ((" - ") ++ body).data, ?_⟩
        rw [show ((("Error: ") ++ (toString st) ++ (" - ") ++ body)).data =
          ("Error: ").data ++ ((toString st).data ++ ((" - ") ++ body).data) from by
            rw [String.data_append, String.data_append]
            simp [List.append_assoc]]
        simp

/-- C6 (witness): a stubbed 500 response flows through the theorem. -/
theorem c6_adapter_failures_witness :
    (format_data_with_deepseek ["f"] ("raw") (.response 500 ("oops") (.ok ("c")))).1 = [] ∧
    ("Error").data <+:
      (format_data_with_deepseek ["f"] ("raw") (.response 500 ("oops") (.ok ("c")))).2.data ∧
    (∀ st body ex,
      (CompletionAttempt.response 500 ("oops") (.ok ("c"))) = .response st body ex →
      st ≠ 200 →
      (toString st).data <:+:
        (format_data_with_deepseek ["f"] ("raw") (.response 500 ("oops") (.ok ("c")))).2.data) :=
  c6_adapter_failures ["f"] ("raw") (.response 500 ("oops") (.ok ("c")))
    (Or.inl (by decide))

theorem length_le_serializeStrTail (xs : List String) :
    xs.length ≤ (serializeStrTail xs).length := by
  induction xs with
  | nil => simp [serializeStrTail]
  | cons x xs2 ih =>
    simp only [serializeStrTail, serializeStr, List.length_cons, List.length_append]
    omega

theorem length_le_serializeStrElems (xs : List String) :
    xs.length ≤ (serializeStrElems xs).length := by
  cases xs with
  | nil => simp [serializeStrElems]
  | cons x xs2 =>
    have := length_le_serializeStrTail xs2
    simp only [serializeStrElems, serializeStr, List.length_cons, List.length_append]
    omega

theorem payload_length_ge (F : List String) (T : String) :
    F.length + (pyDedup F).length + 6 ≤ (serializePayload F T).length := by
  have h1 := length_le_serializeStrElems F
  have h2 := length_le_serializeStrKVs ((pyDedup F).map (fun f => (f, ("string" : String))))
  have hl2 : ((pyDedup F).map (fun f => (f, ("string" : String)))).length =
      (pyDedup F).length := List.length_map _ _
  rw [hl2] at h2
  have e1 : (escList ("headers").data).length = 7 := rfl
  have e2 : (escList ("text").data).length = 4 := rfl
  have e3 : (escList ("schema").data).length = 6 := rfl
  have e4 : (escList ("output_format").data).length = 13 := rfl
  have e5 : (escList ("rows").data).length = 4 := rfl
  simp only [serializePayload, memberS, serializeStr, serializeStrArr, serializeRowsDoc,
    serializeRowsArr, serializeRowsElems, serializeRowsTail, serializeRowObj,
    List.length_append, List.length_cons, List.append_assoc, List.cons_append,
    List.length_nil, e1, e2, e3, e4, e5]
  omega

/-- Top-level decode of the serialized user payload. -/
theorem parseJsonL_payload (F : List String) (T : String) :
    parseJsonL (serializePayload F T) = some (userPayloadJ F T) := by
  have hb := payload_length_ge F T
  obtain ⟨i, hi⟩ : ∃ i, 2 * (serializePayload F T).length + 4 =
      2 * F.length + (pyDedup F).length + 16 + i :=
    ⟨2 * (serializePayload F T).length + 4 - (2 * F.length + (pyDedup F).length + 16), by
      omega⟩
  rw [parseJsonL, hi, show serializePayload F T = serializePayload F T ++ [] from by simp,
    parseValueF_payload F T i []]
  rfl

/-- C7: both `_build_messages` variants produce exactly two messages, the
system one first and the user one second, and the user content decodes to
the payload dict whose `headers` entry is exactly the requested field
list, in order. -/
theorem c7_prompt_builder (F : List String) (T : String) :
    build_messages_main F T =
      [("system", systemTextMain), ("user", String.mk (serializePayload F T))] ∧
    build_messages_idx F T =
      [("system", systemTextIdx), ("user", String.mk (serializePayload F T))] ∧
    (build_messages_main F T).length = 2 ∧
    (build_messages_idx F T).length = 2 ∧
    ∃ kvs, parseJsonL ((String.mk (serializePayload F T)).data) = some (.jobj kvs) ∧
      getKey? kvs ("headers") = some (.jarr (F.map JVal.jstr)) := by
  refine ⟨rfl, rfl, rfl, rfl,
    ⟨[("headers", .jarr (F.map JVal.jstr)), ("text", .jstr T),
      ("schema", .jobj [("rows", .jarr
        [.jobj ((pyDedup F).map (fun f => (f, JVal.jstr ("string"))))])]),
      ("output_format", .jobj [("rows", .jarr
        [.jobj ((pyDedup F).map (fun f => (f, JVal.jstr (""))))])])], ?_, rfl⟩⟩
  exact parseJsonL_payload F T

theorem setKey_not_present (d : List (String × JVal)) (k : String) (v : JVal)
    (h : k ∉ d.map Prod.fst) : setKey d k v = d ++ [(k, v)] := by
  rw [setKey, if_neg]
  intro hc
  rw [List.any_eq_true] at hc
  obtain ⟨p, hp, he⟩ := hc
  rw [decide_eq_true_iff] at he
  exact h (List.mem_map.mpr ⟨p, hp, he⟩)

/-- C9: a record whose stored `rows` is a non-empty list is returned with
every stored field unchanged and exactly one appended key `parsed_rows`
equal to that list verbatim — the `model_raw` re-parse is not consulted;
and in general every successfully normalized record is the stored record
plus exactly the one appended `parsed_rows` key. -/
theorem c9_record_normalization (d : List (String × JVal)) (L : List JVal)
    (hnk : ("parsed_rows") ∉ d.map Prod.fst)
    (hr : getKey? d ("rows") = some (.jarr L)) (hne : L ≠ []) :
    normalize_doc d = some (d ++ [(("parsed_rows"), .jarr L)]) ∧
    (∀ d2 res, ("parsed_rows") ∉ d2.map Prod.fst → normalize_doc d2 = some res →
      ∃ pr, res = d2 ++ [(("parsed_rows"), pr)]) := by
  constructor
  · cases L with
    | nil => exact absurd rfl hne
    | cons x xs =>
      simp only [normalize_doc, hr]
      simp [pyTruthy, pyLen, setKey_not_present _ _ _ hnk]
  · intro d2 res h2 hres
    simp only [normalize_doc] at hres
    split at hres
    · exact absurd hres (by simp)
    · rw [Option.some_inj] at hres
      exact ⟨_, by rw [← hres, setKey_not_present _ _ _ h2]⟩

/-- C9 (witness): a concrete stored record with non-empty rows flows
through the theorem. -/
theorem c9_record_normalization_witness :
    normalize_doc [("userEmail", .jstr ("u@example.com")),
      ("rows", .jarr [.jobj [("a", .jstr ("1"))]]),
      ("model_raw", .jstr ("some raw text"))] =
    some [("userEmail", .jstr ("u@example.com")),
      ("rows", .jarr [.jobj [("a", .jstr ("1"))]]),
      ("model_raw", .jstr ("some raw text")),
      ("parsed_rows", .jarr [.jobj [("a", .jstr ("1"))]])] :=
  (c9_record_normalization
    [("userEmail", .jstr ("u@example.com")),
     ("rows", .jarr [.jobj [("a", .jstr ("1"))]]),
     ("model_raw", .jstr ("some raw text"))]
    [.jobj [("a", .jstr ("1"))]] (by decide) rfl (by simp)).1
